import Mathlib

/-!
Shallow embedding of the azure_poc_sdk chatbot backend and proofs about it.

Source files embedded:
* `src/utils/cosmos_connection.py` — history store adapter (save / fetch-recent);
* `src/utils/llm_invoke.py`       — weak-response heuristic and retry controller;
* `src/app.py`                    — request handlers (chat, clear-session).

Conventions of the embedding: Python strings are `String`; the Cosmos store is an
explicit list of items threaded through the functions; the completion client is a
function from the chat prompt and the attempt index to `Except` (a raised transport
error is `Except.error` carrying the error text); `uuid4()` and `utcnow()` values are
explicit parameters; Python exceptions caught by a `try` are `Except.error` values.
-/

namespace AzurePoc

/-! ### Python string primitives -/

/-- Python `str.lower()`; `Char.toLower` agrees with it on ASCII text, which covers
every phrase and marker the source scans for. -/
def pyLower (s : String) : String :=
  String.mk (s.data.map Char.toLower)

/-- The whitespace characters Python `str.strip()` removes. -/
def isPySpace (c : Char) : Bool :=
  c == ' ' || c == '\t' || c == '\n' || c == '\r' || c == '\x0b' || c == '\x0c'

/-- Python `str.strip()`: drop whitespace from both ends. -/
def pyStrip (s : String) : String :=
  String.mk (((s.data.dropWhile isPySpace).reverse.dropWhile isPySpace).reverse)

/-- `needle` occurs as a contiguous substring of `hay`. -/
def containsSub (needle : List Char) : List Char → Bool
  | [] => needle.isEmpty
  | c :: rest => needle.isPrefixOf (c :: rest) || containsSub needle rest

/-- Python `needle in hay` on strings. -/
def pyIn (needle hay : String) : Bool :=
  containsSub needle.data hay.data

/-! ### The weak-response heuristic (`llm_invoke.py`, lines 177-199) -/

/-- The hedging/refusal phrases scanned for (`weak_response_phrases`). -/
def weak_response_phrases : List String :=
  ["i don't know", "i do not know", "i don't have information",
   "i cannot find", "i'm not sure", "i don't see", "no information available",
   "i don't have access", "i cannot provide", "i'm unable to", "sorry, i don't have",
   "i don't have any information", "i cannot help", "i'm sorry, but i don't",
   "i don't have specific information", "i cannot locate", "i don't find"]

/-- The substantive-content markers whose presence suppresses the weak flag. -/
def substantive_markers : List String :=
  ["however", "although", "but", "based on", "according to", "the document"]

/-- `any(phrase in response_lower for phrase in weak_response_phrases)`. -/
def contains_weak_response (response_content : String) : Bool :=
  weak_response_phrases.any (fun phrase => pyIn phrase (pyLower response_content))

/-- `is_genuinely_weak` (lines 190-195): at least one hedging phrase, trimmed length
strictly under 150, and no substantive marker. -/
def is_genuinely_weak (response_content : String) : Bool :=
  contains_weak_response response_content
    && decide ((pyStrip response_content).data.length < 150)
    && ! substantive_markers.any (fun w => pyIn w (pyLower response_content))

/-! ### The history store adapter (`cosmos_connection.py`) -/

/-- One item of the Cosmos `messages` container (lines 31-37). `id` stands for the
`uuid4()` token and `timestamp` for the ISO-8601 `utcnow()` instant; both are
abstracted to naturals (ISO-8601 strings compare lexicographically as instants do). -/
structure StoredMsg where
  id : Nat
  sessionId : String
  timestamp : Nat
  role : String
  content : String
deriving DecidableEq

/-- Timestamp-ascending order: the key of `sorted(items, key=lambda x: x["timestamp"])`. -/
def tsLe (a b : StoredMsg) : Prop :=
  a.timestamp ≤ b.timestamp

/-- Timestamp-descending order: the store's `ORDER BY c.timestamp DESC`. -/
def tsGe (a b : StoredMsg) : Prop :=
  b.timestamp ≤ a.timestamp

instance : DecidableRel tsLe :=
  fun a b => Nat.decLe a.timestamp b.timestamp

instance : DecidableRel tsGe :=
  fun a b => Nat.decLe b.timestamp a.timestamp

instance : IsTotal StoredMsg tsLe :=
  ⟨fun a b => Nat.le_total a.timestamp b.timestamp⟩

instance : IsTrans StoredMsg tsLe :=
  ⟨fun _ _ _ h1 h2 => Nat.le_trans h1 h2⟩

instance : IsTotal StoredMsg tsGe :=
  ⟨fun a b => Nat.le_total b.timestamp a.timestamp⟩

instance : IsTrans StoredMsg tsGe :=
  ⟨fun _ _ _ h1 h2 => Nat.le_trans h2 h1⟩

/-- The store-side query of lines 51-61: `SELECT TOP limit * FROM c WHERE
c.sessionId = @sessionId ORDER BY c.timestamp DESC`, over an explicit item list. -/
def cosmos_query_items (store : List StoredMsg) (session_id : String) (limit : Nat) :
    List StoredMsg :=
  (((store.filter (fun m => m.sessionId == session_id)).insertionSort tsGe).take limit)

/-- `get_last_messages_from_cosmos` (lines 44-68): empty when the store is disabled or
the query raises; otherwise the TOP-`limit` newest items re-sorted oldest-to-newest
(`sorted(items, key=lambda x: x["timestamp"])`). `queryFails` models the `except`
branch of lines 66-68. -/
def get_last_messages_from_cosmos (cosmos_enabled queryFails : Bool)
    (store : List StoredMsg) (session_id : String) (limit : Nat) : List StoredMsg :=
  if cosmos_enabled = false then []
  else if queryFails = true then []
  else (cosmos_query_items store session_id limit).insertionSort tsLe

/-- `container.create_item(body=item)`: appends the item, or raises when the
underlying write fails (`writeOk = false`). -/
def create_item (writeOk : Bool) (store : List StoredMsg) (item : StoredMsg) :
    Except String (List StoredMsg) :=
  if writeOk then Except.ok (store ++ [item]) else Except.error "create_item failed"

/-- `save_message_to_cosmos` (lines 24-41): a no-op when the store is disabled; the
item holds a fresh id and the current UTC timestamp; a `create_item` failure is
swallowed and only logged (lines 40-41), so the result is always `Except.ok`. -/
def save_message_to_cosmos (cosmos_enabled writeOk : Bool) (store : List StoredMsg)
    (freshId ts : Nat) (session_id role content : String) :
    Except String (List StoredMsg) :=
  if cosmos_enabled = false then Except.ok store
  else
    match create_item writeOk store
        { id := freshId, sessionId := session_id, timestamp := ts,
          role := role, content := content } with
    | Except.ok newStore => Except.ok newStore
    | Except.error _ => Except.ok store

/-- The store state after `save_message_to_cosmos` (which never returns an error). -/
def save_apply (cosmos_enabled writeOk : Bool) (store : List StoredMsg)
    (freshId ts : Nat) (session_id role content : String) : List StoredMsg :=
  match save_message_to_cosmos cosmos_enabled writeOk store freshId ts
      session_id role content with
  | Except.ok s => s
  | Except.error _ => store

/-! ### The retry controller (`llm_invoke.py`, lines 39-227) -/

/-- One `{role, content}` entry of the chat prompt passed to the completion client. -/
structure PromptMsg where
  role : String
  content : String
deriving DecidableEq

/-- The fixed system instruction `prompt_content` (lines 53-78). -/
def prompt_content : String :=
  "You are a helpful and knowledgeable document assistant chatbot. Your primary role is to help users find information from their documents using an integrated search system.\n\nCORE BEHAVIOR:\n- Always try to provide a helpful response, even if the information is partial\n- Be conversational and friendly in your tone\n- When you have relevant information, present it clearly and confidently\n- If information is limited, acknowledge what you do know and offer to help further\n- Maintain conversation continuity by referencing previous exchanges when relevant\n\nRESPONSE GUIDELINES:\n1. ALWAYS attempt to answer based on available document content\n2. If you find relevant information, provide a comprehensive response with specific details\n3. If information is partial, say \"Based on the available information...\" and provide what you can\n4. If no relevant information is found, suggest alternative questions or topics the user might explore\n5. Never simply say \"I don't know\" without attempting to be helpful\n6. Ask clarifying questions when the user's intent is unclear\n7. Provide context and explain technical terms when necessary\n\nCONVERSATION FLOW:\n- Acknowledge the user's question\n- Search through available documents\n- Provide the most relevant information found\n- Offer additional help or related information when appropriate\n- Reference previous conversation context when it adds value to the current response\n\nRemember: You are designed to be maximally helpful. Even when perfect information isn't available, guide the user toward useful insights or suggest ways to refine their search."

/-- Lines 81-103: the chat prompt assembled once per turn — the system instruction,
then the fetched history (the `if cosmos_messages:` guard of line 91 is kept), then
the new user input. -/
def buildChatPrompt (cosmos_messages : List StoredMsg) (user_input : String) :
    List PromptMsg :=
  let base : List PromptMsg := [{ role := "system", content := prompt_content }]
  let withHistory :=
    if cosmos_messages.isEmpty then base
    else base ++ cosmos_messages.map (fun msg => { role := msg.role, content := msg.content })
  withHistory ++ [{ role := "user", content := user_input }]

/-- How one run of `call_llm_async_with_retry` ends: a returned response text, a
raised exception (its text), or Python `None` (line 227, reachable only when
`max_retries ≤ 0`). -/
inductive RetryOutcome where
  | returned (response : String)
  | raised (err : String)
  | returnedNone
deriving DecidableEq

/-- One run of the retry loop, instrumented with the number of completion-client
invocations, the number of inter-attempt delays (`await asyncio.sleep(delay)` at
line 117), and the prompt passed to the client at each invocation. -/
structure RunTrace where
  outcome : RetryOutcome
  calls : Nat
  delays : Nat
  promptsUsed : List (List PromptMsg)
deriving DecidableEq

/-- The attempt loop of lines 110-227. `remaining` counts the attempts still to run
(`max_retries - attempt`); `client` is the completion call of lines 121-169 — a
function of the prompt and the attempt index that yields the response content or a
raised transport error. Python's `attempt < max_retries - 1` over ints is written
`attempt + 1 < max_retries`. The `remaining = 0` branch is the post-loop code of
lines 220-227 with Python truthiness (`if last_response:` is false for `None` and
for the empty string). -/
def runAttempts (client : List PromptMsg → Nat → Except String String)
    (chat_prompt : List PromptMsg) (max_retries : Nat) :
    Nat → Nat → Option String → Option String → Nat → Nat →
    List (List PromptMsg) → RunTrace
  | 0, _, last_response, last_error, calls, delays, prompts =>
    (match last_response with
     | some r =>
       if r = "" then
         (match last_error with
          | some e =>
            { outcome := RetryOutcome.raised e, calls := calls, delays := delays,
              promptsUsed := prompts }
          | none =>
            { outcome := RetryOutcome.returnedNone, calls := calls, delays := delays,
              promptsUsed := prompts })
       else
         { outcome := RetryOutcome.returned r, calls := calls, delays := delays,
           promptsUsed := prompts }
     | none =>
       (match last_error with
        | some e =>
          { outcome := RetryOutcome.raised e, calls := calls, delays := delays,
            promptsUsed := prompts }
        | none =>
          { outcome := RetryOutcome.returnedNone, calls := calls, delays := delays,
            promptsUsed := prompts }))
  | remaining + 1, attempt, last_response, last_error, calls, delays, prompts =>
    let delays1 := if 0 < attempt then delays + 1 else delays
    let prompts1 := prompts ++ [chat_prompt]
    match client chat_prompt attempt with
    | Except.ok response_content =>
      if attempt + 1 < max_retries ∧ is_genuinely_weak response_content = true then
        runAttempts client chat_prompt max_retries remaining (attempt + 1)
          (some response_content) last_error (calls + 1) delays1 prompts1
      else
        { outcome := RetryOutcome.returned response_content, calls := calls + 1,
          delays := delays1, promptsUsed := prompts1 }
    | Except.error e =>
      if attempt + 1 < max_retries then
        runAttempts client chat_prompt max_retries remaining (attempt + 1)
          last_response (some e) (calls + 1) delays1 prompts1
      else
        { outcome := RetryOutcome.raised e, calls := calls + 1,
          delays := delays1, promptsUsed := prompts1 }

/-- `call_llm_async_with_retry`: fetch up to 5 recent messages (line 89), assemble
the prompt once (lines 81-103), then run the attempt loop. -/
def call_llm_async_with_retry (client : List PromptMsg → Nat → Except String String)
    (cosmos_enabled queryFails : Bool) (store : List StoredMsg)
    (session_id user_input : String) (max_retries : Nat) : RunTrace :=
  let cosmos_messages :=
    get_last_messages_from_cosmos cosmos_enabled queryFails store session_id 5
  let chat_prompt := buildChatPrompt cosmos_messages user_input
  runAttempts client chat_prompt max_retries max_retries 0 none none 0 0 []

/-! ### Request handlers (`app.py`) -/

/-- The body of a `POST /chat` request. -/
structure ChatRequest where
  message : String
  session_id : String
deriving DecidableEq

/-- The response model of `POST /chat`. -/
structure ChatResponse where
  response : String
  session_id : String
deriving DecidableEq

/-- The chat handler's result: a `ChatResponse`, or `HTTPException(status, detail)`.
`invalidResponse` stands for the case where the controller returned Python `None`
(reachable only when `max_retries ≤ 0`, never from this handler, which passes the
default `max_retries = 3`): there `ChatResponse(response=None)` would fail
validation. -/
inductive ChatResult where
  | ok (resp : ChatResponse)
  | httpError (status : Nat) (detail : String)
  | invalidResponse
deriving DecidableEq

/-- The `POST /chat` handler (`app.py` lines 79-97): save the user message, run the
retry controller over the updated store with the default `max_retries = 3`, save the
result under role `"assistant"`, and answer; an exception from the controller is
caught, saved as an `"assistant"` message with content `"Error: ..."` and re-raised
as `HTTPException(500)`. `(id1, t1)` and `(id2, t2)` are the `uuid4()`/`utcnow()`
values of the two saves. -/
def chat (client : List PromptMsg → Nat → Except String String)
    (cosmos_enabled queryFails writeOk1 writeOk2 : Bool)
    (id1 t1 id2 t2 : Nat) (request : ChatRequest) (store : List StoredMsg) :
    ChatResult × List StoredMsg :=
  let store1 := save_apply cosmos_enabled writeOk1 store id1 t1
    request.session_id "user" request.message
  let tr := call_llm_async_with_retry client cosmos_enabled queryFails store1
    request.session_id request.message 3
  match tr.outcome with
  | RetryOutcome.returned response =>
    let store2 := save_apply cosmos_enabled writeOk2 store1 id2 t2
      request.session_id "assistant" response
    (ChatResult.ok { response := response, session_id := request.session_id }, store2)
  | RetryOutcome.raised e =>
    let error_message := "Error: " ++ e
    let store2 := save_apply cosmos_enabled writeOk2 store1 id2 t2
      request.session_id "assistant" error_message
    (ChatResult.httpError 500 error_message, store2)
  | RetryOutcome.returnedNone => (ChatResult.invalidResponse, store1)

/-- The response of `POST /session/.../clear`. -/
structure ClearResponse where
  message : String
  success : Bool
deriving DecidableEq

/-- The clear-session handler (`app.py` lines 135-143): answers a success message
without touching the store (the endpoint performs no deletion). -/
def clear_session_history (session_id : String) (store : List StoredMsg) :
    ClearResponse × List StoredMsg :=
  ({ message := "Session " ++ session_id ++ " history cleared", success := true }, store)

/-! ### General lemmas about the embedding -/

theorem containsSub_eq_true_iff (n h : List Char) : containsSub n h = true ↔ n <:+: h := by
  induction h with
  | nil =>
    simp only [containsSub, List.isEmpty_iff, List.infix_nil]
  | cons c rest ih =>
    simp only [containsSub, Bool.or_eq_true, List.isPrefixOf_iff_prefix, ih,
      List.infix_cons_iff]

theorem pyIn_eq_true_iff (n h : String) : pyIn n h = true ↔ n.data <:+: h.data :=
  containsSub_eq_true_iff n.data h.data

/-- When every attempt before the last raises or yields a genuinely-weak response and
the attempt at index `mr - 1` raises `e`, the loop raises `e` after making one call
per attempt (with a delay before every attempt except attempt 0). -/
theorem runAttempts_weak_or_error_raised
    (client : List PromptMsg → Nat → Except String String)
    (cp : List PromptMsg) (mr : Nat) (e : String)
    (hbad : ∀ k, k + 1 < mr → (∃ ek, client cp k = Except.error ek) ∨
      (∃ rk, client cp k = Except.ok rk ∧ is_genuinely_weak rk = true))
    (hlast : client cp (mr - 1) = Except.error e) :
    ∀ remaining attempt lr le calls delays prompts, 1 ≤ remaining →
      attempt + remaining = mr →
      runAttempts client cp mr remaining attempt lr le calls delays prompts =
        { outcome := RetryOutcome.raised e, calls := calls + remaining,
          delays := delays + (remaining - 1) + (if 0 < attempt then 1 else 0),
          promptsUsed := prompts ++ List.replicate remaining cp } := by
  intro remaining
  induction remaining with
  | zero => intro attempt lr le calls delays prompts h1 _; omega
  | succ rem ih =>
    intro attempt lr le calls delays prompts _ hsum
    by_cases hrem : rem = 0
    · subst hrem
      have ha : client cp attempt = Except.error e := by
        have hx : attempt = mr - 1 := by omega
        rw [hx]; exact hlast
      have hnl : ¬ (attempt + 1 < mr) := by omega
      simp only [runAttempts, ha, if_neg hnl]
      by_cases h0 : 0 < attempt <;> simp [h0]
    · have hlt : attempt + 1 < mr := by omega
      rcases hbad attempt hlt with ⟨ek, hek⟩ | ⟨rk, hrk, hwk⟩
      · simp only [runAttempts, hek, if_pos hlt]
        rw [ih (attempt + 1) lr (some ek) (calls + 1)
          (if 0 < attempt then delays + 1 else delays) (prompts ++ [cp])
          (by omega) (by omega)]
        have hrep : List.replicate (rem + 1) cp = cp :: List.replicate rem cp :=
          List.replicate_succ cp rem
        by_cases h0 : 0 < attempt <;>
          simp [h0, hrep] <;> omega
      · have hcond : attempt + 1 < mr ∧ is_genuinely_weak rk = true := ⟨hlt, hwk⟩
        simp only [runAttempts, hrk, if_pos hcond]
        rw [ih (attempt + 1) (some rk) le (calls + 1)
          (if 0 < attempt then delays + 1 else delays) (prompts ++ [cp])
          (by omega) (by omega)]
        have hrep : List.replicate (rem + 1) cp = cp :: List.replicate rem cp :=
          List.replicate_succ cp rem
        by_cases h0 : 0 < attempt <;>
          simp [h0, hrep] <;> omega

/-- When every attempt before the last raises and the attempt at index `mr - 1`
returns `r`, the loop returns `r` (weak or not: the weak check only triggers a retry
when attempts remain) after one call per attempt. -/
theorem runAttempts_errors_then_ok
    (client : List PromptMsg → Nat → Except String String)
    (cp : List PromptMsg) (mr : Nat) (errf : Nat → String) (r : String)
    (herr : ∀ k, k + 1 < mr → client cp k = Except.error (errf k))
    (hlast : client cp (mr - 1) = Except.ok r) :
    ∀ remaining attempt lr le calls delays prompts, 1 ≤ remaining →
      attempt + remaining = mr →
      runAttempts client cp mr remaining attempt lr le calls delays prompts =
        { outcome := RetryOutcome.returned r, calls := calls + remaining,
          delays := delays + (remaining - 1) + (if 0 < attempt then 1 else 0),
          promptsUsed := prompts ++ List.replicate remaining cp } := by
  intro remaining
  induction remaining with
  | zero => intro attempt lr le calls delays prompts h1 _; omega
  | succ rem ih =>
    intro attempt lr le calls delays prompts _ hsum
    by_cases hrem : rem = 0
    · subst hrem
      have ha : client cp attempt = Except.ok r := by
        have hx : attempt = mr - 1 := by omega
        rw [hx]; exact hlast
      have hnl : ¬ (attempt + 1 < mr ∧ is_genuinely_weak r = true) := by
        intro hc; omega
      simp only [runAttempts, ha, if_neg hnl]
      by_cases h0 : 0 < attempt <;> simp [h0]
    · have hlt : attempt + 1 < mr := by omega
      have hek := herr attempt hlt
      simp only [runAttempts, hek, if_pos hlt]
      rw [ih (attempt + 1) lr (some (errf attempt)) (calls + 1)
        (if 0 < attempt then delays + 1 else delays) (prompts ++ [cp])
        (by omega) (by omega)]
      have hrep : List.replicate (rem + 1) cp = cp :: List.replicate rem cp :=
        List.replicate_succ cp rem
      by_cases h0 : 0 < attempt <;>
        simp [h0, hrep] <;> omega

/-- A client that returns the same genuinely-weak response on every call drives the
loop through all attempts; the final attempt returns that response. -/
theorem runAttempts_const_weak
    (cp : List PromptMsg) (mr : Nat) (r : String)
    (hw : is_genuinely_weak r = true) :
    ∀ remaining attempt lr le calls delays prompts, 1 ≤ remaining →
      attempt + remaining = mr →
      runAttempts (fun _ _ => Except.ok r) cp mr remaining attempt lr le calls delays prompts =
        { outcome := RetryOutcome.returned r, calls := calls + remaining,
          delays := delays + (remaining - 1) + (if 0 < attempt then 1 else 0),
          promptsUsed := prompts ++ List.replicate remaining cp } := by
  intro remaining
  induction remaining with
  | zero => intro attempt lr le calls delays prompts h1 _; omega
  | succ rem ih =>
    intro attempt lr le calls delays prompts _ hsum
    by_cases hrem : rem = 0
    · subst hrem
      have hnl : ¬ (attempt + 1 < mr ∧ is_genuinely_weak r = true) := by
        intro hc; omega
      simp only [runAttempts, if_neg hnl]
      by_cases h0 : 0 < attempt <;> simp [h0]
    · have hlt : attempt + 1 < mr := by omega
      have hcond : attempt + 1 < mr ∧ is_genuinely_weak r = true := ⟨hlt, hw⟩
      simp only [runAttempts, if_pos hcond]
      rw [ih (attempt + 1) (some r) le (calls + 1)
        (if 0 < attempt then delays + 1 else delays) (prompts ++ [cp])
        (by omega) (by omega)]
      have hrep : List.replicate (rem + 1) cp = cp :: List.replicate rem cp :=
        List.replicate_succ cp rem
      by_cases h0 : 0 < attempt <;>
        simp [h0, hrep] <;> omega

/-- Every completion-client call of a run receives the same prompt: the trace of
prompts is one copy of `cp` per call made. -/
theorem runAttempts_promptsUsed
    (client : List PromptMsg → Nat → Except String String)
    (cp : List PromptMsg) (mr : Nat) :
    ∀ remaining attempt lr le calls delays prompts,
      calls ≤ (runAttempts client cp mr remaining attempt lr le calls delays prompts).calls ∧
      (runAttempts client cp mr remaining attempt lr le calls delays prompts).promptsUsed =
        prompts ++ List.replicate
          ((runAttempts client cp mr remaining attempt lr le calls delays prompts).calls - calls)
          cp := by
  intro remaining
  induction remaining with
  | zero =>
    intro attempt lr le calls delays prompts
    rcases lr with _ | r <;> rcases le with _ | e <;>
      simp [runAttempts] <;> split <;> simp
  | succ rem ih =>
    intro attempt lr le calls delays prompts
    cases hc : client cp attempt with
    | ok r =>
      by_cases hcond : attempt + 1 < mr ∧ is_genuinely_weak r = true
      · simp only [runAttempts, hc, if_pos hcond]
        have hih := ih (attempt + 1) (some r) le (calls + 1)
          (if 0 < attempt then delays + 1 else delays) (prompts ++ [cp])
        rcases hih with ⟨hle, hpr⟩
        refine ⟨by omega, ?_⟩
        rw [hpr]
        have h1 : (runAttempts client cp mr rem (attempt + 1) (some r) le (calls + 1)
            (if 0 < attempt then delays + 1 else delays) (prompts ++ [cp])).calls - calls
            = ((runAttempts client cp mr rem (attempt + 1) (some r) le (calls + 1)
              (if 0 < attempt then delays + 1 else delays) (prompts ++ [cp])).calls
                - (calls + 1)) + 1 := by
          omega
        rw [h1, List.replicate_succ]
        simp
      · simp only [runAttempts, hc, if_neg hcond]
        simp
    | error e =>
      by_cases hcond : attempt + 1 < mr
      · simp only [runAttempts, hc, if_pos hcond]
        have hih := ih (attempt + 1) lr (some e) (calls + 1)
          (if 0 < attempt then delays + 1 else delays) (prompts ++ [cp])
        rcases hih with ⟨hle, hpr⟩
        refine ⟨by omega, ?_⟩
        rw [hpr]
        have h1 : (runAttempts client cp mr rem (attempt + 1) lr (some e) (calls + 1)
            (if 0 < attempt then delays + 1 else delays) (prompts ++ [cp])).calls - calls
            = ((runAttempts client cp mr rem (attempt + 1) lr (some e) (calls + 1)
              (if 0 < attempt then delays + 1 else delays) (prompts ++ [cp])).calls
                - (calls + 1)) + 1 := by
          omega
        rw [h1, List.replicate_succ]
        simp
      · simp only [runAttempts, hc, if_neg hcond]
        simp

theorem get_last_length_le (ce qf : Bool) (store : List StoredMsg)
    (sid : String) (limit : Nat) :
    (get_last_messages_from_cosmos ce qf store sid limit).length ≤ limit := by
  unfold get_last_messages_from_cosmos
  split
  · simp
  · split
    · simp
    · rw [(List.perm_insertionSort tsLe _).length_eq]
      unfold cosmos_query_items
      exact List.length_take_le _ _

theorem get_last_sorted (ce qf : Bool) (store : List StoredMsg)
    (sid : String) (limit : Nat) :
    List.Sorted tsLe (get_last_messages_from_cosmos ce qf store sid limit) := by
  unfold get_last_messages_from_cosmos
  split
  · exact List.sorted_nil
  · split
    · exact List.sorted_nil
    · exact List.sorted_insertionSort tsLe _

theorem get_last_mem_session (ce qf : Bool) (store : List StoredMsg)
    (sid : String) (limit : Nat) :
    ∀ m ∈ get_last_messages_from_cosmos ce qf store sid limit, m.sessionId = sid := by
  intro m hm
  unfold get_last_messages_from_cosmos at hm
  split at hm
  · simp at hm
  · split at hm
    · simp at hm
    · rw [(List.perm_insertionSort tsLe _).mem_iff] at hm
      unfold cosmos_query_items at hm
      have hm2 := List.mem_of_mem_take hm
      rw [(List.perm_insertionSort tsGe _).mem_iff] at hm2
      have hmf := List.mem_filter.mp hm2
      exact beq_iff_eq.mp hmf.2

/-! ### The claims -/

/-- C1 counterexample: with `max_retries = 2`, a first attempt that returns the
genuinely-weak response "i'm not sure" (recorded as `last_response`, since the weak
check passes and attempts remain) and a final attempt that raises a transport error,
the controller raises the error — it does not return the captured response. -/
theorem C1_counterexample :
    is_genuinely_weak "i'm not sure" = true ∧
    (call_llm_async_with_retry
        (fun _ k => if k = 0 then Except.ok "i'm not sure" else Except.error "transport error")
        false false [] "session" "question" 2).outcome
      = RetryOutcome.raised "transport error" ∧
    (call_llm_async_with_retry
        (fun _ k => if k = 0 then Except.ok "i'm not sure" else Except.error "transport error")
        false false [] "session" "question" 2).calls = 2 :=
  ⟨by decide, by decide, by decide⟩

/-- C1 (amended): when every attempt before the last raises or returns a
genuinely-weak (captured) response and the final attempt fails with a transport
error, the controller propagates that error to the caller: a captured response is
not preferred over raising, because the final attempt re-raises inside the loop
(lines 216-218) and the post-loop `return last_response` (lines 220-227) is
unreachable for `max_retries ≥ 1`. -/
theorem C1_amended_final_error_raised
    (client : List PromptMsg → Nat → Except String String) (ce qf : Bool)
    (store : List StoredMsg) (sid input : String) (mr : Nat) (e : String)
    (h1 : 1 ≤ mr)
    (hbad : ∀ k, k + 1 < mr →
      (∃ ek, client (buildChatPrompt (get_last_messages_from_cosmos ce qf store sid 5) input) k
          = Except.error ek) ∨
      (∃ rk, client (buildChatPrompt (get_last_messages_from_cosmos ce qf store sid 5) input) k
          = Except.ok rk ∧ is_genuinely_weak rk = true))
    (hlast : client (buildChatPrompt (get_last_messages_from_cosmos ce qf store sid 5) input)
        (mr - 1) = Except.error e) :
    (call_llm_async_with_retry client ce qf store sid input mr).outcome
      = RetryOutcome.raised e ∧
    (call_llm_async_with_retry client ce qf store sid input mr).calls = mr ∧
    (call_llm_async_with_retry client ce qf store sid input mr).delays = mr - 1 := by
  have h := runAttempts_weak_or_error_raised client
    (buildChatPrompt (get_last_messages_from_cosmos ce qf store sid 5) input) mr e hbad hlast
    mr 0 none none 0 0 [] h1 (by omega)
  simp only [call_llm_async_with_retry]
  rw [h]
  simp

/-- C1 witness: the amended theorem at the counterexample's concrete scenario. -/
theorem C1_amended_witness :
    (call_llm_async_with_retry
        (fun _ k => if k = 0 then Except.ok "i'm not sure" else Except.error "transport error")
        false false [] "session" "question" 2).outcome
      = RetryOutcome.raised "transport error" ∧
    (call_llm_async_with_retry
        (fun _ k => if k = 0 then Except.ok "i'm not sure" else Except.error "transport error")
        false false [] "session" "question" 2).calls = 2 ∧
    (call_llm_async_with_retry
        (fun _ k => if k = 0 then Except.ok "i'm not sure" else Except.error "transport error")
        false false [] "session" "question" 2).delays = 1 :=
  C1_amended_final_error_raised
    (fun _ k => if k = 0 then Except.ok "i'm not sure" else Except.error "transport error")
    false false [] "session" "question" 2 "transport error" (by omega)
    (by
      intro k hk
      have hk0 : k = 0 := by omega
      subst hk0
      exact Or.inr ⟨"i'm not sure", rfl, by decide⟩)
    rfl

/-- C2 counterexample: on a fatal controller error the chat handler stores the
failure under role "assistant", not "error": the store afterwards holds the user
message and an "assistant" message with content "Error: boom", and no stored
message has role "error". -/
theorem C2_counterexample :
    chat (fun _ _ => Except.error "boom") true false true true 1 10 2 20
        { message := "hi", session_id := "s1" } [] =
      (ChatResult.httpError 500 "Error: boom",
       [StoredMsg.mk 1 "s1" 10 "user" "hi",
        StoredMsg.mk 2 "s1" 20 "assistant" "Error: boom"]) ∧
    ((chat (fun _ _ => Except.error "boom") true false true true 1 10 2 20
        { message := "hi", session_id := "s1" } []).2.filter
          (fun m => m.role == "error")).length = 0 :=
  ⟨by decide, by decide⟩

/-- C2 (amended): when the retry controller raises, the chat handler stores a
Message of role "assistant" (not "error") whose content is "Error: " followed by the
error text, and surfaces the failure as HTTP 500 carrying that text; on success it
stores the result under role "assistant" and answers with the response text and the
session id. -/
theorem C2_amended_error_stored_as_assistant
    (client : List PromptMsg → Nat → Except String String)
    (ce qf w1 w2 : Bool) (id1 t1 id2 t2 : Nat)
    (request : ChatRequest) (store : List StoredMsg) :
    (∀ e, (call_llm_async_with_retry client ce qf
          (save_apply ce w1 store id1 t1 request.session_id "user" request.message)
          request.session_id request.message 3).outcome = RetryOutcome.raised e →
      chat client ce qf w1 w2 id1 t1 id2 t2 request store =
        (ChatResult.httpError 500 ("Error: " ++ e),
         save_apply ce w2
           (save_apply ce w1 store id1 t1 request.session_id "user" request.message)
           id2 t2 request.session_id "assistant" ("Error: " ++ e))) ∧
    (∀ r, (call_llm_async_with_retry client ce qf
          (save_apply ce w1 store id1 t1 request.session_id "user" request.message)
          request.session_id request.message 3).outcome = RetryOutcome.returned r →
      chat client ce qf w1 w2 id1 t1 id2 t2 request store =
        (ChatResult.ok { response := r, session_id := request.session_id },
         save_apply ce w2
           (save_apply ce w1 store id1 t1 request.session_id "user" request.message)
           id2 t2 request.session_id "assistant" r)) := by
  constructor
  · intro e he
    simp only [chat, he]
  · intro r hr
    simp only [chat, hr]

/-- C2 witness: the amended theorem's error branch at a concrete failing run. -/
theorem C2_amended_witness :
    chat (fun _ _ => Except.error "boom") true false true true 1 10 2 20
        { message := "hi", session_id := "s1" } [] =
      (ChatResult.httpError 500 "Error: boom",
       save_apply true true
         (save_apply true true [] 1 10 "s1" "user" "hi") 2 20 "s1" "assistant"
         "Error: boom") :=
  (C2_amended_error_stored_as_assistant (fun _ _ => Except.error "boom")
    true false true true 1 10 2 20 { message := "hi", session_id := "s1" } []).1
    "boom" (by decide)

/-- C3: the weak-response classifier marks a text genuinely weak iff its lower-cased
form contains one of the 17 hedging phrases, its trimmed length is strictly under
150 characters, and its lower-cased form contains none of the six substantive
markers; in particular a text containing "i'm not sure", under 150 characters, with
no marker is weak, and any text prefixed with "However, " is non-weak regardless of
length. -/
theorem C3_weak_classifier :
    (∀ s : String, is_genuinely_weak s = true ↔
      ((∃ p ∈ weak_response_phrases, p.data <:+: (pyLower s).data) ∧
       (pyStrip s).data.length < 150 ∧
       ∀ m ∈ substantive_markers, ¬ m.data <:+: (pyLower s).data)) ∧
    weak_response_phrases.length = 17 ∧
    (∀ s : String, pyIn "i'm not sure" (pyLower s) = true →
      (pyStrip s).data.length < 150 →
      (∀ m ∈ substantive_markers, pyIn m (pyLower s) = false) →
      is_genuinely_weak s = true) ∧
    (∀ s : String, is_genuinely_weak ("However, " ++ s) = false) := by
  have hiff : ∀ s : String, is_genuinely_weak s = true ↔
      ((∃ p ∈ weak_response_phrases, p.data <:+: (pyLower s).data) ∧
       (pyStrip s).data.length < 150 ∧
       ∀ m ∈ substantive_markers, ¬ m.data <:+: (pyLower s).data) := by
    intro s
    simp only [is_genuinely_weak, contains_weak_response, Bool.and_eq_true,
      List.any_eq_true, pyIn_eq_true_iff, decide_eq_true_iff, Bool.not_eq_true',
      List.any_eq_false, Bool.not_eq_true]
    tauto
  refine ⟨hiff, by decide, ?_, ?_⟩
  · intro s hin hlen hmk
    refine (hiff s).mpr ⟨⟨"i'm not sure", by decide, (pyIn_eq_true_iff _ _).mp hin⟩, hlen, ?_⟩
    intro m hm
    have hmf := hmk m hm
    rw [← pyIn_eq_true_iff]
    simp [hmf]
  · intro s
    have hmark : substantive_markers.any
        (fun w => pyIn w (pyLower ("However, " ++ s))) = true := by
      rw [List.any_eq_true]
      refine ⟨"however", by decide, ?_⟩
      rw [pyIn_eq_true_iff]
      have h1 : (pyLower ("However, " ++ s)).data
          = ("However, ".data.map Char.toLower) ++ (s.data.map Char.toLower) := by
        simp [pyLower, String.data_append]
      have h2 : "However, ".data.map Char.toLower = ("however, " : String).data := by decide
      rw [h1, h2]
      exact (List.IsPrefix.trans (by decide) (List.prefix_append _ _)).isInfix
    simp [is_genuinely_weak, hmark]

/-- C3 witness: "i'm not sure" (12 characters, no marker) is weak, and the same
text prefixed with "However, " is non-weak. -/
theorem C3_witness :
    is_genuinely_weak "i'm not sure" = true ∧
    is_genuinely_weak "However, i'm not sure" = false := by
  constructor
  · exact C3_weak_classifier.2.2.1 "i'm not sure" (by decide) (by decide) (by decide)
  · have h := C3_weak_classifier.2.2.2 "i'm not sure"
    have he : ("However, " ++ "i'm not sure" : String) = "However, i'm not sure" := by decide
    rw [he] at h
    exact h

/-- C4: with `max_retries = 3` and a completion client that returns the same
genuinely-weak response on every call, the controller makes exactly 3 client
invocations with exactly 2 inter-attempt delays and returns that weak response
(neither raising nor returning null). The second conjunct shows the claim's
"10-character" qualifier is unsatisfiable: no 10-character response can be
genuinely weak, because every hedging phrase is at least 11 characters long. -/
theorem C4_constant_weak_three_attempts :
    (∀ (ce qf : Bool) (store : List StoredMsg) (sid input r : String),
      is_genuinely_weak r = true →
        (call_llm_async_with_retry (fun _ _ => Except.ok r) ce qf store sid input 3).outcome
          = RetryOutcome.returned r ∧
        (call_llm_async_with_retry (fun _ _ => Except.ok r) ce qf store sid input 3).calls
          = 3 ∧
        (call_llm_async_with_retry (fun _ _ => Except.ok r) ce qf store sid input 3).delays
          = 2) ∧
    (∀ r : String, r.data.length = 10 → is_genuinely_weak r = false) := by
  constructor
  · intro ce qf store sid input r hw
    have h := runAttempts_const_weak
      (buildChatPrompt (get_last_messages_from_cosmos ce qf store sid 5) input) 3 r hw
      3 0 none none 0 0 [] (by omega) (by omega)
    simp only [call_llm_async_with_retry]
    rw [h]
    simp
  · intro r h10
    cases hA : contains_weak_response r with
    | false => simp [is_genuinely_weak, hA]
    | true =>
      exfalso
      unfold contains_weak_response at hA
      rw [List.any_eq_true] at hA
      rcases hA with ⟨p, hp, hin⟩
      rw [pyIn_eq_true_iff] at hin
      have hlen := hin.length_le
      have hlow : (pyLower r).data.length = r.data.length := by
        simp [pyLower]
      have h11 : ∀ q ∈ weak_response_phrases, 11 ≤ q.data.length := by decide
      have hq := h11 p hp
      omega

/-- C4 witness: the constant weak response "i'm not sure". -/
theorem C4_witness :
    (call_llm_async_with_retry (fun _ _ => Except.ok "i'm not sure")
        false false [] "session" "question" 3).outcome
      = RetryOutcome.returned "i'm not sure" ∧
    (call_llm_async_with_retry (fun _ _ => Except.ok "i'm not sure")
        false false [] "session" "question" 3).calls = 3 ∧
    (call_llm_async_with_retry (fun _ _ => Except.ok "i'm not sure")
        false false [] "session" "question" 3).delays = 2 :=
  C4_constant_weak_three_attempts.1 false false [] "session" "question"
    "i'm not sure" (by decide)

/-- C5: with `max_retries = 3`, a client whose first two calls raise and whose third
call returns a non-weak response makes the controller return that third response
after 3 invocations, propagating neither earlier error. -/
theorem C5_errors_then_success (e0 e1 r : String) (ce qf : Bool) (store : List StoredMsg)
    (sid input : String) (_hnw : is_genuinely_weak r = false) :
    (call_llm_async_with_retry
        (fun _ k => if k = 0 then Except.error e0
          else if k = 1 then Except.error e1 else Except.ok r)
        ce qf store sid input 3).outcome = RetryOutcome.returned r ∧
    (call_llm_async_with_retry
        (fun _ k => if k = 0 then Except.error e0
          else if k = 1 then Except.error e1 else Except.ok r)
        ce qf store sid input 3).calls = 3 ∧
    (call_llm_async_with_retry
        (fun _ k => if k = 0 then Except.error e0
          else if k = 1 then Except.error e1 else Except.ok r)
        ce qf store sid input 3).delays = 2 := by
  have h := runAttempts_errors_then_ok
    (fun _ k => if k = 0 then Except.error e0
      else if k = 1 then Except.error e1 else Except.ok r)
    (buildChatPrompt (get_last_messages_from_cosmos ce qf store sid 5) input) 3
    (fun k => if k = 0 then e0 else e1) r
    (by
      intro k hk
      have hk01 : k = 0 ∨ k = 1 := by omega
      rcases hk01 with hk0 | hk0 <;> subst hk0 <;> rfl)
    (by rfl)
    3 0 none none 0 0 [] (by omega) (by omega)
  simp only [call_llm_async_with_retry]
  rw [h]
  simp

/-- C5 witness: errors "e0", "e1", then the non-weak "The document says X.". -/
theorem C5_witness :
    (call_llm_async_with_retry
        (fun _ k => if k = 0 then Except.error "e0"
          else if k = 1 then Except.error "e1" else Except.ok "The document says X.")
        false false [] "session" "question" 3).outcome
      = RetryOutcome.returned "The document says X." ∧
    (call_llm_async_with_retry
        (fun _ k => if k = 0 then Except.error "e0"
          else if k = 1 then Except.error "e1" else Except.ok "The document says X.")
        false false [] "session" "question" 3).calls = 3 ∧
    (call_llm_async_with_retry
        (fun _ k => if k = 0 then Except.error "e0"
          else if k = 1 then Except.error "e1" else Except.ok "The document says X.")
        false false [] "session" "question" 3).delays = 2 :=
  C5_errors_then_success "e0" "e1" "The document says X." false false []
    "session" "question" (by decide)

/-- C6: a completion client that raises on every call makes the controller (any
`max_retries ≥ 1`) perform all `max_retries` attempts and propagate the error of the
final attempt. -/
theorem C6_all_errors_raises_last (errf : Nat → String) (ce qf : Bool)
    (store : List StoredMsg) (sid input : String) (mr : Nat) (h1 : 1 ≤ mr) :
    (call_llm_async_with_retry (fun _ k => Except.error (errf k))
        ce qf store sid input mr).outcome = RetryOutcome.raised (errf (mr - 1)) ∧
    (call_llm_async_with_retry (fun _ k => Except.error (errf k))
        ce qf store sid input mr).calls = mr ∧
    (call_llm_async_with_retry (fun _ k => Except.error (errf k))
        ce qf store sid input mr).delays = mr - 1 := by
  have h := runAttempts_weak_or_error_raised
    (fun _ k => Except.error (errf k))
    (buildChatPrompt (get_last_messages_from_cosmos ce qf store sid 5) input) mr
    (errf (mr - 1))
    (fun k _ => Or.inl ⟨errf k, rfl⟩) rfl
    mr 0 none none 0 0 [] h1 (by omega)
  simp only [call_llm_async_with_retry]
  rw [h]
  simp

/-- C6 witness: the always-raising client at `max_retries = 3`. -/
theorem C6_witness :
    (call_llm_async_with_retry (fun _ _ => Except.error "boom")
        false false [] "session" "question" 3).outcome = RetryOutcome.raised "boom" ∧
    (call_llm_async_with_retry (fun _ _ => Except.error "boom")
        false false [] "session" "question" 3).calls = 3 ∧
    (call_llm_async_with_retry (fun _ _ => Except.error "boom")
        false false [] "session" "question" 3).delays = 2 :=
  C6_all_errors_raises_last (fun _ => "boom") false false [] "session" "question" 3
    (by omega)

/-- C7: the chat prompt is assembled exactly once per turn — the fixed system
instruction, then the up-to-5 most recent stored messages of the session in
oldest-to-newest order, then the new user input — and every retry attempt passes
that identical prompt to the completion client (the trace of prompts used is one
copy of it per call). -/
theorem C7_prompt_assembled_once (client : List PromptMsg → Nat → Except String String)
    (ce qf : Bool) (store : List StoredMsg) (sid input : String) (mr : Nat) :
    (call_llm_async_with_retry client ce qf store sid input mr).promptsUsed
      = List.replicate (call_llm_async_with_retry client ce qf store sid input mr).calls
          (buildChatPrompt (get_last_messages_from_cosmos ce qf store sid 5) input) ∧
    buildChatPrompt (get_last_messages_from_cosmos ce qf store sid 5) input
      = { role := "system", content := prompt_content }
        :: ((get_last_messages_from_cosmos ce qf store sid 5).map
              (fun msg => { role := msg.role, content := msg.content }) ++
            [{ role := "user", content := input }]) ∧
    (get_last_messages_from_cosmos ce qf store sid 5).length ≤ 5 ∧
    List.Sorted tsLe (get_last_messages_from_cosmos ce qf store sid 5) := by
  refine ⟨?_, ?_, get_last_length_le ce qf store sid 5, get_last_sorted ce qf store sid 5⟩
  · have h := runAttempts_promptsUsed client
      (buildChatPrompt (get_last_messages_from_cosmos ce qf store sid 5) input) mr
      mr 0 none none 0 0 []
    rcases h with ⟨hle, hpr⟩
    simp only [call_llm_async_with_retry]
    rw [hpr]
    simp
  · generalize get_last_messages_from_cosmos ce qf store sid 5 = msgs
    cases msgs with
    | nil => simp [buildChatPrompt]
    | cons a l => simp [buildChatPrompt]

/-- C8: `save_message_to_cosmos` never raises, for all inputs and store states: it
always yields `Except.ok` — a no-op when the store is disabled, the unchanged store
when the underlying write fails (the failure is swallowed), and the store with the
new message appended when the write succeeds. -/
theorem C8_save_never_raises (ce wok : Bool) (store : List StoredMsg)
    (freshId ts : Nat) (sid roleStr content : String) :
    (∃ s, save_message_to_cosmos ce wok store freshId ts sid roleStr content
      = Except.ok s) ∧
    (ce = false →
      save_message_to_cosmos ce wok store freshId ts sid roleStr content
        = Except.ok store) ∧
    (ce = true → wok = false →
      save_message_to_cosmos ce wok store freshId ts sid roleStr content
        = Except.ok store) ∧
    (ce = true → wok = true →
      save_message_to_cosmos ce wok store freshId ts sid roleStr content
        = Except.ok (store ++ [StoredMsg.mk freshId sid ts roleStr content])) := by
  cases ce <;> cases wok <;> simp [save_message_to_cosmos, create_item]

/-- C8 witness: the disabled, failing-write and successful-write cases at concrete
inputs. -/
theorem C8_witness :
    save_message_to_cosmos true false [] 7 42 "s1" "user" "hello" = Except.ok [] ∧
    save_message_to_cosmos false true [] 7 42 "s1" "user" "hello" = Except.ok [] ∧
    save_message_to_cosmos true true [] 7 42 "s1" "user" "hello"
      = Except.ok [StoredMsg.mk 7 "s1" 42 "user" "hello"] :=
  ⟨(C8_save_never_raises true false [] 7 42 "s1" "user" "hello").2.2.1 rfl rfl,
   (C8_save_never_raises false true [] 7 42 "s1" "user" "hello").2.1 rfl,
   (C8_save_never_raises true true [] 7 42 "s1" "user" "hello").2.2.2 rfl rfl⟩

/-- C9: `get_last_messages_from_cosmos` returns at most `limit` messages, sorted in
non-decreasing timestamp order; when the store is enabled and the query succeeds the
result is a permutation of the TOP-`limit` newest messages of the session (and every
returned message belongs to the session); when the store is disabled or the query
fails it returns the empty list instead of raising. -/
theorem C9_fetch_recent_contract (ce qf : Bool) (store : List StoredMsg)
    (sid : String) (limit : Nat) :
    (get_last_messages_from_cosmos ce qf store sid limit).length ≤ limit ∧
    List.Sorted tsLe (get_last_messages_from_cosmos ce qf store sid limit) ∧
    (ce = false → get_last_messages_from_cosmos ce qf store sid limit = []) ∧
    (qf = true → get_last_messages_from_cosmos ce qf store sid limit = []) ∧
    (ce = true → qf = false →
      (get_last_messages_from_cosmos ce qf store sid limit).Perm
        (cosmos_query_items store sid limit) ∧
      ∀ m ∈ get_last_messages_from_cosmos ce qf store sid limit, m.sessionId = sid) := by
  refine ⟨get_last_length_le ce qf store sid limit, get_last_sorted ce qf store sid limit,
    ?_, ?_, ?_⟩
  · intro h; subst h; simp [get_last_messages_from_cosmos]
  · intro h; subst h; simp [get_last_messages_from_cosmos]
  · intro hce hqf; subst hce; subst hqf
    refine ⟨?_, get_last_mem_session true false store sid limit⟩
    simp only [get_last_messages_from_cosmos]
    simp
    exact List.perm_insertionSort tsLe _

/-- C9 witness: a concrete 3-message store (one message of another session, two of
session "s1" stored newest-first) with `limit = 3`, plus the disabled case. -/
theorem C9_witness :
    get_last_messages_from_cosmos false false [StoredMsg.mk 1 "s1" 5 "user" "a"]
      "s1" 3 = [] ∧
    (get_last_messages_from_cosmos true false
        [StoredMsg.mk 1 "s1" 5 "user" "a", StoredMsg.mk 2 "s1" 3 "assistant" "b",
         StoredMsg.mk 3 "s2" 4 "user" "c"] "s1" 3).Perm
      (cosmos_query_items
        [StoredMsg.mk 1 "s1" 5 "user" "a", StoredMsg.mk 2 "s1" 3 "assistant" "b",
         StoredMsg.mk 3 "s2" 4 "user" "c"] "s1" 3) ∧
    (get_last_messages_from_cosmos true false
        [StoredMsg.mk 1 "s1" 5 "user" "a", StoredMsg.mk 2 "s1" 3 "assistant" "b",
         StoredMsg.mk 3 "s2" 4 "user" "c"] "s1" 3).length ≤ 3 ∧
    List.Sorted tsLe (get_last_messages_from_cosmos true false
        [StoredMsg.mk 1 "s1" 5 "user" "a", StoredMsg.mk 2 "s1" 3 "assistant" "b",
         StoredMsg.mk 3 "s2" 4 "user" "c"] "s1" 3) :=
  ⟨(C9_fetch_recent_contract false false [StoredMsg.mk 1 "s1" 5 "user" "a"]
      "s1" 3).2.2.1 rfl,
   ((C9_fetch_recent_contract true false
      [StoredMsg.mk 1 "s1" 5 "user" "a", StoredMsg.mk 2 "s1" 3 "assistant" "b",
       StoredMsg.mk 3 "s2" 4 "user" "c"] "s1" 3).2.2.2.2 rfl rfl).1,
   (C9_fetch_recent_contract true false
      [StoredMsg.mk 1 "s1" 5 "user" "a", StoredMsg.mk 2 "s1" 3 "assistant" "b",
       StoredMsg.mk 3 "s2" 4 "user" "c"] "s1" 3).1,
   (C9_fetch_recent_contract true false
      [StoredMsg.mk 1 "s1" 5 "user" "a", StoredMsg.mk 2 "s1" 3 "assistant" "b",
       StoredMsg.mk 3 "s2" 4 "user" "c"] "s1" 3).2.1⟩

/-- C10: the clear-session handler reports success (`success = true` with the
"history cleared" message) while leaving the store completely unchanged; a
subsequent history fetch for any session returns exactly what it returned before
the call. -/
theorem C10_clear_session_noop (session_id : String) (store : List StoredMsg)
    (ce qf : Bool) (sid2 : String) (limit : Nat) :
    (clear_session_history session_id store).2 = store ∧
    (clear_session_history session_id store).1.success = true ∧
    (clear_session_history session_id store).1.message
      = "Session " ++ session_id ++ " history cleared" ∧
    get_last_messages_from_cosmos ce qf (clear_session_history session_id store).2
        sid2 limit
      = get_last_messages_from_cosmos ce qf store sid2 limit :=
  ⟨rfl, rfl, rfl, rfl⟩

end AzurePoc
